import Mathlib

/-!
# Verification of the segmented-recording query & reconstruction engine

Shallow embedding of the relevant endpoint logic of `frigate/http.py`
(interval retrieval, VOD manifest construction, clip materialization,
hourly activity aggregation, event preview selection), with theorems
settling the frozen specification claims.

Modelling conventions:

* Python floats (epoch timestamps, durations) are modelled as `ℚ`.
* Python `int(x)` (truncation toward zero) is `pyInt`.
* The database table is a list of rows; a `select ... where ... order_by`
  is a filter followed by a sort on the selected key.
* The ffmpeg concat playlist lines are modelled structurally
  (an inductive of `file` / `inpoint` / `outpoint` lines) rather than as
  formatted strings; the numeric payloads are exactly the code's.
* Filesystem state is an association list from paths to file contents;
  the external tool is a parameter recording its exit code and what (if
  anything) it left at its target path.
-/

/-- Python `int()` on a rational: truncation toward zero
(`Int.tdiv` is T-division, and a rational's denominator is positive). -/
def pyInt (q : ℚ) : ℤ := q.num.tdiv q.den

/-- `pyInt` is the identity on integer-valued rationals. -/
theorem pyInt_intCast (n : ℤ) : pyInt (n : ℚ) = n := by
  unfold pyInt
  rw [Rat.num_intCast, Rat.den_intCast]
  simp

/-- Evaluation form of `pyInt` convenient for concrete arguments. -/
theorem pyInt_eq_of_intCast {q : ℚ} {n : ℤ} (h : q = (n : ℚ)) :
    pyInt q = n := by
  rw [h, pyInt_intCast]

/-- A stored recording segment row (`Recordings` table): camera id, storage
path, `[start_time, end_time]` interval, `duration`, and the per-segment
statistics `motion` and `objects`. -/
structure Recording where
  camera : String
  path : String
  start_time : ℚ
  end_time : ℚ
  duration : ℚ
  motion : Nat
  objects : Nat
deriving DecidableEq, Repr

/-! ## IntervalIndex: the three-clause overlap retrieval

`recording_clip` (http.py:2067-2080), `vod_ts` (http.py:2155-2165) and
`preview_ts` (http.py:2242-2259) all issue the same `where` clause:

    start_time.between(start_ts, end_ts)
    | end_time.between(start_ts, end_ts)
    | ((start_ts > start_time) & (end_ts < end_time))

with `order_by(start_time.asc())`.  SQL `BETWEEN` is inclusive on both
ends. -/

/-- SQL `x BETWEEN lo AND hi` (inclusive). -/
def sqlBetween (x lo hi : ℚ) : Prop := lo ≤ x ∧ x ≤ hi

instance (x lo hi : ℚ) : Decidable (sqlBetween x lo hi) := by
  unfold sqlBetween; infer_instance

/-- The three-clause overlap test of the recordings query. -/
def overlapsWindow (r : Recording) (start_ts end_ts : ℚ) : Prop :=
  sqlBetween r.start_time start_ts end_ts ∨
  sqlBetween r.end_time start_ts end_ts ∨
  (start_ts > r.start_time ∧ end_ts < r.end_time)

instance (r : Recording) (s e : ℚ) : Decidable (overlapsWindow r s e) := by
  unfold overlapsWindow; infer_instance

/-- Ascending order on `start_time`, the query's `order_by` key. -/
def byStart (a b : Recording) : Prop := a.start_time ≤ b.start_time

instance : DecidableRel byStart := fun a b => by
  unfold byStart; infer_instance

instance : IsTotal Recording byStart :=
  ⟨fun a b => le_total a.start_time b.start_time⟩

instance : IsTrans Recording byStart :=
  ⟨fun _ _ _ hab hbc => le_trans hab hbc⟩

/-- The interval retrieval used by `vod_ts`, `recording_clip` and
`preview_ts`: rows of the table for this camera passing the three-clause
overlap test, ordered ascending by `start_time`. -/
def queryOverlapping (table : List Recording) (camera : String)
    (start_ts end_ts : ℚ) : List Recording :=
  List.insertionSort byStart
    (table.filter fun r =>
      decide (overlapsWindow r start_ts end_ts) && (r.camera == camera))

/-- A segment wholly disjoint from the window `[s, e]`. -/
def whollyDisjoint (r : Recording) (s e : ℚ) : Prop :=
  r.end_time < s ∨ e < r.start_time

/-- **C1.** The interval retrieval returns `S` iff `S` belongs to the table
for the requested camera and `S.start_time ∈ [start,end]`, or
`S.end_time ∈ [start,end]`, or `S` strictly contains the window; for a
well-formed window and segment it never returns a wholly disjoint segment;
and the result is ordered ascending by `start_time`. -/
theorem interval_retrieval_spec (table : List Recording) (camera : String)
    (s e : ℚ) :
    (∀ r : Recording,
      r ∈ queryOverlapping table camera s e ↔
        r ∈ table ∧ r.camera = camera ∧
          (sqlBetween r.start_time s e ∨ sqlBetween r.end_time s e ∨
            (r.start_time < s ∧ e < r.end_time))) ∧
    (∀ r ∈ queryOverlapping table camera s e,
      r.start_time ≤ r.end_time → s ≤ e → ¬ whollyDisjoint r s e) ∧
    List.Sorted byStart (queryOverlapping table camera s e) := by
  refine ⟨fun r => ?_, fun r hr hwf hw => ?_, ?_⟩
  · unfold queryOverlapping
    rw [List.mem_insertionSort, List.mem_filter]
    simp only [Bool.and_eq_true, decide_eq_true_eq, beq_iff_eq]
    unfold overlapsWindow
    constructor
    · rintro ⟨hmem, ⟨hov, hcam⟩⟩
      exact ⟨hmem, hcam, by simpa [gt_iff_lt] using hov⟩
    · rintro ⟨hmem, hcam, hov⟩
      exact ⟨hmem, ⟨by simpa [gt_iff_lt] using hov, hcam⟩⟩
  · unfold queryOverlapping at hr
    rw [List.mem_insertionSort, List.mem_filter] at hr
    obtain ⟨-, hcond⟩ := hr
    simp only [Bool.and_eq_true, decide_eq_true_eq] at hcond
    obtain ⟨hov, -⟩ := hcond
    unfold whollyDisjoint
    unfold overlapsWindow sqlBetween at hov
    rcases hov with ⟨h1, h2⟩ | ⟨h1, h2⟩ | ⟨h1, h2⟩ <;>
      push_neg <;> constructor <;> linarith
  · exact List.sorted_insertionSort byStart _

/-- Witness for C1 at a concrete table and window: the overlapping segment
is returned, and the returned segment is not wholly disjoint. -/
theorem interval_retrieval_spec_witness :
    let r1 : Recording :=
      ⟨"front", "/a.mp4", 0, 300, 300, 0, 0⟩
    let r2 : Recording :=
      ⟨"front", "/b.mp4", 1000, 1300, 300, 0, 0⟩
    (r1 ∈ queryOverlapping [r1, r2] "front" 250 650 ↔
        r1 ∈ [r1, r2] ∧ r1.camera = "front" ∧
          (sqlBetween r1.start_time 250 650 ∨ sqlBetween r1.end_time 250 650 ∨
            (r1.start_time < 250 ∧ 650 < r1.end_time))) ∧
    (r1 ∈ queryOverlapping [r1, r2] "front" 250 650 →
      r1.start_time ≤ r1.end_time → (250 : ℚ) ≤ 650 →
        ¬ whollyDisjoint r1 250 650) := by
  intro r1 r2
  exact ⟨(interval_retrieval_spec [r1, r2] "front" 250 650).1 r1,
    fun h => (interval_retrieval_spec [r1, r2] "front" 250 650).2.1 r1 h⟩

/-! ## ClipMaterializer: concat playlist (http.py:2082-2091)

    for clip in recordings:
        playlist_lines.append(f"file '{clip.path}'")
        if clip.start_time < start_ts:
            playlist_lines.append(f"inpoint {int(start_ts - clip.start_time)}")
        if clip.end_time > end_ts:
            playlist_lines.append(f"outpoint {int(end_ts - clip.start_time)}")

Lines are modelled structurally; payloads are exactly the code's. -/

/-- One line of the ffmpeg concat playlist. -/
inductive PlaylistLine where
  | file (path : String)
  | inpoint (offset : ℤ)
  | outpoint (offset : ℤ)
deriving DecidableEq, Repr

/-- The lines the loop body emits for one clip. -/
def clipLines (c : Recording) (start_ts end_ts : ℚ) : List PlaylistLine :=
  [PlaylistLine.file c.path] ++
    (if c.start_time < start_ts
      then [PlaylistLine.inpoint (pyInt (start_ts - c.start_time))] else []) ++
    (if c.end_time > end_ts
      then [PlaylistLine.outpoint (pyInt (end_ts - c.start_time))] else [])

/-- The whole concat playlist of `recording_clip`. -/
def playlistLines (clips : List Recording) (start_ts end_ts : ℚ) :
    List PlaylistLine :=
  clips.flatMap (clipLines · start_ts end_ts)

/-- The playlist opens with the first clip's lines. -/
theorem playlistLines_cons (c : Recording) (cs : List Recording)
    (s e : ℚ) :
    playlistLines (c :: cs) s e = clipLines c s e ++ playlistLines cs s e := by
  simp [playlistLines]

/-- The playlist closes with the last clip's lines. -/
theorem playlistLines_concat (cs : List Recording) (c : Recording)
    (s e : ℚ) :
    playlistLines (cs ++ [c]) s e
      = playlistLines cs s e ++ clipLines c s e := by
  simp [playlistLines, clipLines]

/-- **C6.** In the concat playlist: when the first segment starts before the
window, the playlist begins with its file line immediately followed by an
`inpoint` offset of `int(start - segment.start_time)`; when the last segment
ends after the window, the playlist's final line is an `outpoint` offset of
`int(end - segment.start_time)` (relative to that segment's own start); a
segment lying fully inside the window contributes only its file line. -/
theorem concat_playlist_boundary_offsets (clips : List Recording)
    (s e : ℚ) (hne : clips ≠ []) :
    ((clips.head hne).start_time < s →
      (playlistLines clips s e).take 2 =
        [PlaylistLine.file (clips.head hne).path,
         PlaylistLine.inpoint (pyInt (s - (clips.head hne).start_time))]) ∧
    ((clips.getLast hne).end_time > e →
      (playlistLines clips s e).getLast? =
        some (PlaylistLine.outpoint
          (pyInt (e - (clips.getLast hne).start_time)))) ∧
    (∀ c ∈ clips, s ≤ c.start_time → c.end_time ≤ e →
      clipLines c s e = [PlaylistLine.file c.path]) := by
  refine ⟨fun hfirst => ?_, fun hlast => ?_, fun c _ hcs hce => ?_⟩
  · obtain ⟨c, cs, rfl⟩ := List.exists_cons_of_ne_nil hne
    simp only [List.head_cons] at hfirst ⊢
    rw [playlistLines_cons]
    unfold clipLines
    rw [if_pos hfirst]
    cases h2 : decide (c.end_time > e) <;> simp_all
  · obtain ⟨cs, c, rfl⟩ := (List.eq_nil_or_concat' clips).resolve_left hne
    simp only [List.getLast_append_singleton] at hlast ⊢
    rw [playlistLines_concat]
    have hcl : (clipLines c s e).getLast? =
        some (PlaylistLine.outpoint (pyInt (e - c.start_time))) := by
      unfold clipLines
      rw [if_pos hlast]
      rcases lt_or_le c.start_time s with h2 | h2
      · rw [if_pos h2]; rfl
      · rw [if_neg (not_lt.mpr h2)]; rfl
    rw [List.getLast?_append_of_ne_nil _ (by
      unfold clipLines; rw [if_pos hlast]; simp), hcl]
  · unfold clipLines
    rw [if_neg (by linarith), if_neg (by linarith)]
    simp

/-- Witness for C6 at the concrete scenario: segments `(0,300)` and
`(300,600)` against window `(250,650)` get an `inpoint 250` after the first
file line; segment `(600,900)` against window `(250,650)` ends the playlist
with `outpoint 50`. -/
theorem concat_playlist_boundary_offsets_witness :
    let r1 : Recording := ⟨"front", "/a.mp4", 0, 300, 300, 0, 0⟩
    let r2 : Recording := ⟨"front", "/b.mp4", 300, 600, 300, 0, 0⟩
    let r3 : Recording := ⟨"front", "/c.mp4", 600, 900, 300, 0, 0⟩
    (playlistLines [r1, r2, r3] 250 650).take 2 =
        [PlaylistLine.file "/a.mp4", PlaylistLine.inpoint 250] ∧
    (playlistLines [r1, r2, r3] 250 650).getLast? =
        some (PlaylistLine.outpoint 50) ∧
    clipLines r2 250 650 = [PlaylistLine.file "/b.mp4"] := by
  intro r1 r2 r3
  have h := concat_playlist_boundary_offsets [r1, r2, r3] 250 650
    (by simp)
  refine ⟨?_, ?_, h.2.2 r2 (by simp) (by norm_num) (by norm_num)⟩
  · have h1 := h.1 (by norm_num)
    have e1 : pyInt ((250 : ℚ) - 0) = 250 := pyInt_eq_of_intCast (by norm_num)
    simpa [e1] using h1
  · have h2 := h.2.1 (by norm_num [List.getLast])
    have e2 : pyInt ((650 : ℚ) - 600) = 50 := pyInt_eq_of_intCast (by norm_num)
    simpa [List.getLast, e2] using h2

/-! ## ClipMaterializer: cache check, external tool, publication
(http.py:2093-2149)

    path = os.path.join(CACHE_DIR, secure_filename(f"clip_{camera}_{start}-{end}.mp4"))
    if not os.path.exists(path):
        p = sp.run([... ffmpeg ... path], input=playlist, ...)
        if p.returncode != 0:
            return 500 {"success": False, "message": "Could not create clip ..."}
    else:
        (debug log; ffmpeg not invoked)
    ... serve the file at `path` ...

Crucial structural facts taken from the source: the external tool's output
target is `path` itself — the deterministic cache path (http.py:2113) — and
the error branch returns without deleting anything (http.py:2122-2132).
The filesystem is an association list from paths to byte strings; the
external tool is modelled by its exit code and the content (if any) it
left at its target path when it returned. -/

/-- Filesystem: association list from paths to file contents. -/
def FS := List (String × String)

/-- `os.path.exists` / reading the file at a path. -/
def FS.lookup (fs : FS) (p : String) : Option String :=
  match fs with
  | [] => none
  | (q, d) :: rest => if q = p then some d else FS.lookup rest p

/-- The tool wrote `d` at its target path. -/
def FS.put (fs : FS) (p : String) (d : String) : FS := (p, d) :: fs

/-- Observable behaviour of one external-tool invocation: its exit code,
and the content it left at its target path (`none`: it left nothing). -/
structure ToolRun where
  exitCode : ℤ
  output : Option String

/-- Outcome of a `recording_clip` request. -/
inductive ClipResponse where
  | served (data : String)
  | error500
  | missing
deriving DecidableEq, Repr

/-- One run of the materialization part of `recording_clip`: given the
filesystem and the behaviour the external tool would have on this request,
returns the new filesystem, the response, and how many times the tool was
invoked.  Mirrors http.py:2096-2149: the tool runs only when `path` is
absent; its target is `path` itself; a non-zero exit returns 500 with no
cleanup; otherwise the file at `path` is served. -/
def recordingClipRun (fs : FS) (path : String) (tool : ToolRun) :
    FS × ClipResponse × Nat :=
  match fs.lookup path with
  | some _ =>
    -- cache hit: tool not invoked, serve the existing file unchanged
    (fs, match fs.lookup path with
         | some d => ClipResponse.served d
         | none => ClipResponse.missing, 0)
  | none =>
    let fs1 : FS := match tool.output with
      | some d => fs.put path d
      | none => fs
    if tool.exitCode ≠ 0 then
      (fs1, ClipResponse.error500, 1)
    else
      (fs1, match fs1.lookup path with
            | some d => ClipResponse.served d
            | none => ClipResponse.missing, 1)

/-- **C3.** Materialization is idempotent: when a file is already cached at
the deterministic path the request serves it unchanged with zero tool
invocations and an unchanged filesystem; consequently, after a first
successful materialization that produced `d`, a second identical request
serves the byte-identical `d`, and the two requests invoke the tool exactly
once in total. -/
theorem clip_materialize_idempotent (fs : FS) (path : String)
    (tool1 tool2 : ToolRun) (d : String)
    (hmiss : fs.lookup path = none)
    (hok : tool1.exitCode = 0) (hout : tool1.output = some d) :
    (∀ fs0 : FS, ∀ d0, fs0.lookup path = some d0 →
      recordingClipRun fs0 path tool2 = (fs0, ClipResponse.served d0, 0)) ∧
    (recordingClipRun fs path tool1).2.1 = ClipResponse.served d ∧
    (recordingClipRun (recordingClipRun fs path tool1).1 path tool2).2.1
      = ClipResponse.served d ∧
    (recordingClipRun fs path tool1).2.2 +
      (recordingClipRun (recordingClipRun fs path tool1).1 path tool2).2.2
      = 1 := by
  have hhit : ∀ fs0 : FS, ∀ d0, fs0.lookup path = some d0 →
      recordingClipRun fs0 path tool2 = (fs0, ClipResponse.served d0, 0) := by
    intro fs0 d0 h0
    unfold recordingClipRun
    rw [h0]
  have hrun1 : recordingClipRun fs path tool1
      = (fs.put path d, ClipResponse.served d, 1) := by
    unfold recordingClipRun
    rw [hmiss, hout]
    rw [if_neg (by rw [hok]; exact not_ne_iff.mpr rfl)]
    have : (fs.put path d).lookup path = some d := by
      unfold FS.put FS.lookup
      rw [if_pos rfl]
    rw [this]
  have hput : (fs.put path d).lookup path = some d := by
    unfold FS.put FS.lookup
    rw [if_pos rfl]
  refine ⟨hhit, ?_, ?_, ?_⟩
  · rw [hrun1]
  · rw [hrun1]
    rw [hhit (fs.put path d) d hput]
  · rw [hrun1, hhit (fs.put path d) d hput]
    rfl

/-- Witness for C3 at a concrete cache state: empty filesystem, a tool run
that succeeds writing `"MP4"`, then an arbitrary second tool run. -/
theorem clip_materialize_idempotent_witness :
    (FS.lookup [] "clip_front_100-200.mp4" = none) ∧
    ((∀ fs0 : FS, ∀ d0, fs0.lookup "clip_front_100-200.mp4" = some d0 →
      recordingClipRun fs0 "clip_front_100-200.mp4" ⟨1, none⟩
        = (fs0, ClipResponse.served d0, 0)) ∧
    (recordingClipRun [] "clip_front_100-200.mp4" ⟨0, some "MP4"⟩).2.1
      = ClipResponse.served "MP4" ∧
    (recordingClipRun
      (recordingClipRun [] "clip_front_100-200.mp4" ⟨0, some "MP4"⟩).1
      "clip_front_100-200.mp4" ⟨1, none⟩).2.1 = ClipResponse.served "MP4" ∧
    (recordingClipRun [] "clip_front_100-200.mp4" ⟨0, some "MP4"⟩).2.2 +
      (recordingClipRun
        (recordingClipRun [] "clip_front_100-200.mp4" ⟨0, some "MP4"⟩).1
        "clip_front_100-200.mp4" ⟨1, none⟩).2.2 = 1) :=
  ⟨rfl, clip_materialize_idempotent [] "clip_front_100-200.mp4"
    ⟨0, some "MP4"⟩ ⟨1, none⟩ "MP4" rfl rfl rfl⟩

/-- **C2, counterexample.** The claim "a non-zero tool exit leaves no
partial file at the deterministic cache path, so a subsequent identical
request does not serve a stale artifact" is false on the code: the tool's
output target IS the deterministic cache path, and the error branch deletes
nothing.  Concretely, with an empty cache and a tool run that writes a
partial file and exits 1, the request returns 500, the partial file remains
at the path, and a second identical request serves those stale bytes with
no tool invocation. -/
theorem clip_failure_leaves_partial_counterexample :
    (recordingClipRun [] "clip_front_100-200.mp4" ⟨1, some "PARTIAL"⟩).2.1
      = ClipResponse.error500 ∧
    (recordingClipRun [] "clip_front_100-200.mp4" ⟨1, some "PARTIAL"⟩).1.lookup
      "clip_front_100-200.mp4" = some "PARTIAL" ∧
    (recordingClipRun
      (recordingClipRun [] "clip_front_100-200.mp4" ⟨1, some "PARTIAL"⟩).1
      "clip_front_100-200.mp4" ⟨0, some "GOOD"⟩).2.1
      = ClipResponse.served "PARTIAL" ∧
    (recordingClipRun
      (recordingClipRun [] "clip_front_100-200.mp4" ⟨1, some "PARTIAL"⟩).1
      "clip_front_100-200.mp4" ⟨0, some "GOOD"⟩).2.2 = 0 :=
  ⟨rfl, rfl, rfl, rfl⟩

/-- **C2, amended.** On a cache miss with a non-zero tool exit the request
does fail with a 500 response and invokes the tool once; the deterministic
path stays clean exactly when the failing tool left no output there — but
whatever output the failing tool did leave remains at the deterministic
cache path (no temp-then-publish), where a subsequent request will find and
serve it. -/
theorem clip_failure_returns_500 (fs : FS) (path : String) (tool : ToolRun)
    (hmiss : fs.lookup path = none) (hfail : tool.exitCode ≠ 0) :
    (recordingClipRun fs path tool).2.1 = ClipResponse.error500 ∧
    (recordingClipRun fs path tool).2.2 = 1 ∧
    (tool.output = none → (recordingClipRun fs path tool).1.lookup path = none) ∧
    (∀ d, tool.output = some d →
      (recordingClipRun fs path tool).1.lookup path = some d) := by
  unfold recordingClipRun
  rw [hmiss]
  simp only [if_pos hfail]
  refine ⟨trivial, trivial, fun hnone => ?_, fun d hsome => ?_⟩
  · rw [hnone]
    exact hmiss
  · rw [hsome]
    unfold FS.put FS.lookup
    rw [if_pos rfl]

/-- Witness for the amended C2 at a concrete input: failing tool that left
no output keeps the path clean. -/
theorem clip_failure_returns_500_witness :
    (recordingClipRun [] "clip_front_100-200.mp4" ⟨1, none⟩).2.1
        = ClipResponse.error500 ∧
    (recordingClipRun [] "clip_front_100-200.mp4" ⟨1, none⟩).1.lookup
        "clip_front_100-200.mp4" = none := by
  have h := clip_failure_returns_500 [] "clip_front_100-200.mp4" ⟨1, none⟩
    rfl (by decide)
  exact ⟨h.1, h.2.2.1 rfl⟩

/-! ## ManifestBuilder: `vod_ts` (http.py:2154-2209)

    max_duration_ms = MAX_SEGMENT_DURATION * 1000
    for recording in recordings:
        duration = int(recording.duration * 1000)
        if recording.end_time > end_ts:
            duration -= int((recording.end_time - end_ts) * 1000)
        if 0 < duration < max_duration_ms:
            clips.append({..., "keyFrameDurations": [duration]}); durations.append(duration)
        else:
            logger.warning(...)
    if not clips: return 404 {"success": False, "message": "No recordings found."}
    return {cache, discontinuity: False, durations, segment_duration: max(durations), ...}

`MAX_SEGMENT_DURATION` is imported from the out-of-scope constants module,
so `max_duration_ms` stays a parameter. -/

/-- The per-segment used duration of `vod_ts` (http.py:2174-2178). -/
def vodDuration (r : Recording) (end_ts : ℚ) : ℤ :=
  let d := pyInt (r.duration * 1000)
  if r.end_time > end_ts then d - pyInt ((r.end_time - end_ts) * 1000) else d

/-- A clip descriptor of the VOD manifest. -/
structure VodClip where
  path : String
  keyFrameDurations : List ℤ
deriving DecidableEq, Repr

/-- The clip list of `vod_ts`: segments whose used duration passes
`0 < duration < max_duration_ms`; the others are discarded (logged). -/
def vodClips (recs : List Recording) (end_ts : ℚ) (maxms : ℤ) :
    List VodClip :=
  recs.filterMap fun r =>
    let d := vodDuration r end_ts
    if 0 < d ∧ d < maxms then some ⟨r.path, [d]⟩ else none

/-- The durations list of `vod_ts`, parallel to `vodClips`. -/
def vodDurations (recs : List Recording) (end_ts : ℚ) (maxms : ℤ) :
    List ℤ :=
  recs.filterMap fun r =>
    let d := vodDuration r end_ts
    if 0 < d ∧ d < maxms then some d else none

/-- Response of the `vod_ts` endpoint. -/
inductive VodResponse where
  | error (status : ℤ) (success : Bool) (message : String)
  | manifest (cache : Bool) (discontinuity : Bool) (durations : List ℤ)
      (segment_duration : ℤ) (clips : List VodClip)
deriving DecidableEq, Repr

/-- The `vod_ts` endpoint (http.py:2154-2209): interval retrieval, duration
filtering, 404 when nothing survives, else the manifest document. -/
def vod_ts (table : List Recording) (camera : String) (start_ts end_ts : ℚ)
    (maxms : ℤ) (now : ℚ) : VodResponse :=
  let recs := queryOverlapping table camera start_ts end_ts
  let clips := vodClips recs end_ts maxms
  let durations := vodDurations recs end_ts maxms
  if clips = [] then
    VodResponse.error 404 false "No recordings found."
  else
    VodResponse.manifest (decide (now - 3600 > start_ts)) false durations
      (durations.foldl max 0) clips

/-- **C4.** Every duration the manifest emits satisfies
`0 < d < max_duration_ms`, and the durations list is exactly the computed
per-segment durations with the out-of-range ones discarded (the request is
never failed on their account). -/
theorem manifest_duration_bounds (recs : List Recording) (end_ts : ℚ)
    (maxms : ℤ) :
    (∀ d ∈ vodDurations recs end_ts maxms, 0 < d ∧ d < maxms) ∧
    vodDurations recs end_ts maxms
      = (recs.map (vodDuration · end_ts)).filter
          (fun d => decide (0 < d ∧ d < maxms)) := by
  constructor
  · intro d hd
    unfold vodDurations at hd
    rw [List.mem_filterMap] at hd
    obtain ⟨r, -, hr⟩ := hd
    by_cases h : 0 < vodDuration r end_ts ∧ vodDuration r end_ts < maxms
    · rw [if_pos h] at hr
      cases hr
      exact h
    · rw [if_neg h] at hr
      cases hr
  · induction recs with
    | nil => rfl
    | cons r rs ih =>
      unfold vodDurations at ih ⊢
      rw [List.filterMap_cons, List.map_cons, List.filter_cons]
      by_cases h : 0 < vodDuration r end_ts ∧ vodDuration r end_ts < maxms
      · rw [if_pos h, if_pos (by exact decide_eq_true h), ih]
      · rw [if_neg h, if_neg (by simpa using h), ih]

/-- Witness for C4: window `(250,650)` over segment `(600,900)` of recorded
duration `300` yields the single trimmed duration `50000` ms, inside
`(0, 10000000)`. -/
theorem manifest_duration_bounds_witness :
    vodDurations [⟨"front", "/c.mp4", 600, 900, 300, 0, 0⟩] 650 10000000
        = [50000] ∧
    ((50000 : ℤ) ∈
        vodDurations [⟨"front", "/c.mp4", 600, 900, 300, 0, 0⟩] 650 10000000 →
      (0 : ℤ) < 50000 ∧ (50000 : ℤ) < 10000000) := by
  have hd : vodDuration ⟨"front", "/c.mp4", 600, 900, 300, 0, 0⟩ 650
      = 50000 := by
    simp only [vodDuration]
    rw [if_pos (by norm_num),
      pyInt_eq_of_intCast (n := 300000) (by norm_num),
      pyInt_eq_of_intCast (n := 250000) (by norm_num)]
    norm_num
  refine ⟨?_,
    (manifest_duration_bounds
      [⟨"front", "/c.mp4", 600, 900, 300, 0, 0⟩] 650 10000000).1 50000⟩
  simp only [vodDurations, List.filterMap_cons, List.filterMap_nil, hd]
  norm_num

/-- **C5.** The used duration starts at `int(duration * 1000)`; when the
segment's end exceeds the window's end, exactly `int((end_time - end) *
1000)` is subtracted, and otherwise nothing is; the used duration never
depends on the segment's `start_time`, so a segment starting before the
window's start is not trimmed at the leading edge. -/
theorem manifest_trailing_trim_only (r : Recording) (end_ts : ℚ) :
    (r.end_time > end_ts →
      vodDuration r end_ts
        = pyInt (r.duration * 1000) - pyInt ((r.end_time - end_ts) * 1000)) ∧
    (r.end_time ≤ end_ts → vodDuration r end_ts = pyInt (r.duration * 1000)) ∧
    (∀ s' : ℚ, vodDuration { r with start_time := s' } end_ts
        = vodDuration r end_ts) := by
  refine ⟨fun h => ?_, fun h => ?_, fun s' => ?_⟩
  · unfold vodDuration
    rw [if_pos h]
  · unfold vodDuration
    rw [if_neg (not_lt.mpr h)]
  · unfold vodDuration
    rfl

/-- Witness for C5: segment `(600,900)` of duration `300` against window
end `650` is trimmed to `300000 - 250000` ms; against window end `900` it
keeps `300000` ms; moving its start does not change the duration. -/
theorem manifest_trailing_trim_only_witness :
    let r3 : Recording := ⟨"front", "/c.mp4", 600, 900, 300, 0, 0⟩
    ((900 : ℚ) > 650 →
      vodDuration r3 650 = pyInt (300 * 1000) - pyInt ((900 - 650) * 1000)) ∧
    ((900 : ℚ) ≤ 900 → vodDuration r3 900 = pyInt (300 * 1000)) ∧
    vodDuration { r3 with start_time := 100 } 650 = vodDuration r3 650 := by
  intro r3
  exact ⟨fun h => (manifest_trailing_trim_only r3 650).1 h,
    fun h => (manifest_trailing_trim_only r3 900).2.1 h,
    (manifest_trailing_trim_only r3 650).2.2 100⟩

/-- **C9.** Whenever no segment survives the duration filter — in
particular when the window overlaps no stored segment at all — `vod_ts`
answers the 404 error document `{success: false, message: "No recordings
found."}`; and conversely a 404 is only answered when nothing survived. -/
theorem vod_empty_returns_404 (table : List Recording) (camera : String)
    (s e : ℚ) (maxms : ℤ) (now : ℚ) :
    (vodClips (queryOverlapping table camera s e) e maxms = [] →
      vod_ts table camera s e maxms now
        = VodResponse.error 404 false "No recordings found.") ∧
    (queryOverlapping table camera s e = [] →
      vod_ts table camera s e maxms now
        = VodResponse.error 404 false "No recordings found.") ∧
    (vod_ts table camera s e maxms now
          = VodResponse.error 404 false "No recordings found." →
      vodClips (queryOverlapping table camera s e) e maxms = []) := by
  refine ⟨fun h => ?_, fun h => ?_, fun h => ?_⟩
  · unfold vod_ts
    rw [if_pos h]
  · unfold vod_ts
    rw [if_pos (by rw [h]; rfl)]
  · by_contra hne
    unfold vod_ts at h
    rw [if_neg hne] at h
    cases h

/-- Witness for C9: a window overlapping no segment of the table yields the
404 document. -/
theorem vod_empty_returns_404_witness :
    vod_ts [⟨"front", "/a.mp4", 0, 300, 300, 0, 0⟩] "front" 1000 2000
        10000000 5000
      = VodResponse.error 404 false "No recordings found." :=
  (vod_empty_returns_404 [⟨"front", "/a.mp4", 0, 300, 300, 0, 0⟩] "front"
    1000 2000 10000000 5000).2.1 (by decide)

/-! ## ActivityAggregator: `hourly_timeline_activity` (http.py:919-981)

    key = datetime.fromtimestamp(after).replace(second=0, microsecond=0)
            + timedelta(minutes=minute_offset)
    check = (key + timedelta(hours=1)).timestamp()
    hours[int(key.timestamp())].append([key.timestamp(), 0, False])
    for recording in all_recordings:
        if recording.start_time > check:
            hours[int(key.timestamp())].append(
                [(key + timedelta(minutes=59, seconds=59)).timestamp(), 0, False])
            key = key + timedelta(hours=1)
            check = (key + timedelta(hours=1)).timestamp()
            hours[int(key.timestamp())].append([key.timestamp(), 0, False])
        data_type = recording.objects > 0
        count = recording.motion + recording.objects
        hours[int(key.timestamp())].append(
            [recording.start_time + (recording.duration / 2),
             0 if count == 0 else np.log2(count), data_type])

The cursor `key` is a whole-second, minute-aligned timestamp (the seconds
and microseconds are zeroed; the timezone offset is whole minutes), so it
is modelled as `ℤ`; `check` is always `key + 3600` and is inlined.
`np.log2` lives outside the embedded code (an external numeric routine),
so it is an injected parameter `log2 : Nat → ℚ`; the code only ever
applies it to a nonzero count.  A sample is `(date, magnitude,
has_objects)`.  `hours` is `defaultdict(list)`: an association list whose
entries are created at first access, appending at the end. -/

/-- One raw activity sample: date, magnitude, has-objects flag. -/
structure Sample where
  date : ℚ
  magnitude : ℚ
  hasObj : Bool
deriving DecidableEq, Repr

/-- The `hours` accumulator: bucket key (epoch seconds) to samples. -/
def Hours := List (ℤ × List Sample)

/-- Bucket access; a missing bucket is the empty list. -/
def lookupHours (hs : Hours) (k : ℤ) : List Sample :=
  match hs with
  | [] => []
  | (k0, v) :: rest => if k0 = k then v else lookupHours rest k

/-- `hours[k].append(s)` on a `defaultdict(list)`. -/
def addSample (hs : Hours) (k : ℤ) (s : Sample) : Hours :=
  match hs with
  | [] => [(k, [s])]
  | (k0, v) :: rest =>
    if k0 = k then (k0, v ++ [s]) :: rest else (k0, v) :: addSample rest k s

theorem lookupHours_addSample_self (hs : Hours) (k : ℤ) (s : Sample) :
    lookupHours (addSample hs k s) k = lookupHours hs k ++ [s] := by
  induction hs with
  | nil => simp [addSample, lookupHours]
  | cons kv rest ih =>
    obtain ⟨k0, v⟩ := kv
    by_cases h : k0 = k
    · subst h
      simp [addSample, lookupHours]
    · simp only [addSample, lookupHours, if_neg h]
      exact ih

theorem lookupHours_addSample_other (hs : Hours) (k k' : ℤ) (s : Sample)
    (hne : k' ≠ k) :
    lookupHours (addSample hs k' s) k = lookupHours hs k := by
  induction hs with
  | nil => simp [addSample, lookupHours, hne]
  | cons kv rest ih =>
    obtain ⟨k0, v⟩ := kv
    by_cases h : k0 = k'
    · subst h
      simp [addSample, lookupHours, hne]
    · simp only [addSample, lookupHours, if_neg h]
      split <;> simp_all [lookupHours]

/-- The real-segment sample: temporal midpoint, `log2` magnitude when the
motion+objects count is nonzero, has-objects flag. -/
def recordingSample (log2 : Nat → ℚ) (r : Recording) : Sample :=
  ⟨r.start_time + r.duration / 2,
   if r.motion + r.objects = 0 then 0 else log2 (r.motion + r.objects),
   decide (r.objects > 0)⟩

/-- The loop body of the recording-activity aggregation
(http.py:935-962). -/
def stepRecording (log2 : Nat → ℚ) (st : ℤ × Hours) (r : Recording) :
    ℤ × Hours :=
  let key := st.1
  let hours := st.2
  let st2 : ℤ × Hours :=
    if r.start_time > (key : ℚ) + 3600 then
      let h1 := addSample hours key ⟨(key : ℚ) + 3599, 0, false⟩
      let k2 := key + 3600
      (k2, addSample h1 k2 ⟨((k2 : ℤ) : ℚ), 0, false⟩)
    else (key, hours)
  (st2.1, addSample st2.2 st2.1 (recordingSample log2 r))

/-- The bucketing phase of `hourly_timeline_activity`: the minute-truncated
window start shifted by the timezone minute offset seeds the cursor and the
first boundary sample, then the recordings are folded in ascending
start-time order. -/
def hourlyActivityRaw (log2 : Nat → ℚ) (after : ℚ) (minuteOffset : ℤ)
    (recs : List Recording) : Hours :=
  let key0 : ℤ := 60 * ⌊after / 60⌋ + 60 * minuteOffset
  let hours0 := addSample [] key0 ⟨((key0 : ℤ) : ℚ), 0, false⟩
  (recs.foldl (stepRecording log2) (key0, hours0)).2

/-- **C7.** One aggregation step: when the segment's start exceeds the
current hour cursor's boundary `key + 3600`, a zero-magnitude sample at the
end minute of the current hour (`key + 59*60 + 59`) is appended to the
current bucket, the cursor advances by exactly one hour — only one, however
large the gap — and the new bucket opens with a zero-magnitude
boundary-start sample followed by the segment's midpoint sample of
magnitude `log2(motion+objects)` (0 on a zero count) and its has-objects
flag; otherwise the cursor is unchanged and only the midpoint sample is
appended. -/
theorem activity_step_hour_advance (log2 : Nat → ℚ) (r : Recording)
    (key : ℤ) (hours : Hours) :
    (r.start_time > (key : ℚ) + 3600 →
      (stepRecording log2 (key, hours) r).1 = key + 3600 ∧
      lookupHours (stepRecording log2 (key, hours) r).2 key
        = lookupHours hours key ++ [⟨(key : ℚ) + 3599, 0, false⟩] ∧
      lookupHours (stepRecording log2 (key, hours) r).2 (key + 3600)
        = lookupHours hours (key + 3600) ++
            [⟨((key + 3600 : ℤ) : ℚ), 0, false⟩, recordingSample log2 r]) ∧
    (r.start_time ≤ (key : ℚ) + 3600 →
      (stepRecording log2 (key, hours) r).1 = key ∧
      lookupHours (stepRecording log2 (key, hours) r).2 key
        = lookupHours hours key ++ [recordingSample log2 r]) := by
  constructor
  · intro hgap
    have hne : key + 3600 ≠ key := by omega
    have hstep : stepRecording log2 (key, hours) r
        = (key + 3600,
            addSample
              (addSample (addSample hours key ⟨(key : ℚ) + 3599, 0, false⟩)
                (key + 3600) ⟨((key + 3600 : ℤ) : ℚ), 0, false⟩)
              (key + 3600) (recordingSample log2 r)) := by
      simp only [stepRecording]
      rw [if_pos hgap]
    rw [hstep]
    refine ⟨rfl, ?_, ?_⟩
    · rw [lookupHours_addSample_other _ _ _ _ hne,
        lookupHours_addSample_other _ _ _ _ hne,
        lookupHours_addSample_self]
    · rw [lookupHours_addSample_self, lookupHours_addSample_self,
        lookupHours_addSample_other _ _ _ _ (by omega : key ≠ key + 3600)]
      simp
  · intro hle
    have hstep : stepRecording log2 (key, hours) r
        = (key, addSample hours key (recordingSample log2 r)) := by
      simp only [stepRecording]
      rw [if_neg (not_lt.mpr hle)]
    rw [hstep]
    exact ⟨rfl, lookupHours_addSample_self _ _ _⟩

/-- Witness for C7: cursor at hour `0`, empty buckets, and a segment
starting at `7500` — a gap of more than two hours.  The cursor advances to
`3600` only (one hour), bucket `0` closes with the `3599` zero sample, and
bucket `3600` opens with its boundary sample followed by the midpoint
sample at `7505`. -/
theorem activity_step_hour_advance_witness :
    (stepRecording (fun _ => 1) (0, []) ⟨"front", "/r.mp4", 7500, 9000, 10, 3, 0⟩).1
        = 3600 ∧
    lookupHours
        (stepRecording (fun _ => 1) (0, [])
          ⟨"front", "/r.mp4", 7500, 9000, 10, 3, 0⟩).2 0
      = lookupHours [] 0 ++ [⟨(0 : ℚ) + 3599, 0, false⟩] ∧
    lookupHours
        (stepRecording (fun _ => 1) (0, [])
          ⟨"front", "/r.mp4", 7500, 9000, 10, 3, 0⟩).2 (0 + 3600)
      = lookupHours [] (0 + 3600) ++
          [⟨(((0 : ℤ) + 3600 : ℤ) : ℚ), 0, false⟩,
           recordingSample (fun _ => 1) ⟨"front", "/r.mp4", 7500, 9000, 10, 3, 0⟩] :=
  (activity_step_hour_advance (fun _ => 1)
    ⟨"front", "/r.mp4", 7500, 9000, 10, 3, 0⟩ 0 []).1 (by norm_num)

/-! ## ActivityAggregator: per-minute resampling (http.py:964-981)

    df = pd.DataFrame(data, columns=["date", "count", "hasObjects"])
    df["date"] = pd.to_datetime(df["date"], unit="s"); df.set_index(["date"])
    df = df.resample("T").mean().fillna(0)
    df.index = df.index.astype(int) // (10**9)
    df["count"] = df["count"].astype(int)
    df["hasObjects"] = df["hasObjects"].astype(bool)

`resample("T")` produces one epoch-aligned minute bin for every minute
between the first and the last sample's minute (empty bins included);
`mean` of an empty bin is NaN, turned into 0 by `fillna`; `astype(int)`
truncates toward zero; `astype(bool)` of the mean of booleans is true iff
some sample in the bin was true; the index floor-divides nanoseconds into
whole seconds, and minute bins fall on whole minutes. -/

/-- The epoch-aligned minute bin of a timestamp. -/
def minuteOf (q : ℚ) : ℤ := ⌊q / 60⌋

/-- Sum of a list of rationals. -/
def ratSum (l : List ℚ) : ℚ := l.foldr (· + ·) 0

theorem ratSum_nonneg (l : List ℚ) (h : ∀ x ∈ l, 0 ≤ x) : 0 ≤ ratSum l := by
  induction l with
  | nil => simp [ratSum]
  | cons a l ih =>
    have ha : 0 ≤ a := h a (List.mem_cons_self a l)
    have hl : 0 ≤ ratSum l := ih fun x hx => h x (List.mem_cons_of_mem a hx)
    simpa [ratSum] using add_nonneg ha hl

theorem pyInt_nonneg {q : ℚ} (h : 0 ≤ q) : 0 ≤ pyInt q :=
  Int.tdiv_nonneg (Rat.num_nonneg.mpr h) (Int.ofNat_nonneg q.den)

/-- One row of the resampled activity series. -/
structure MinuteEntry where
  date : ℤ
  count : ℤ
  hasObjects : Bool
deriving DecidableEq, Repr

/-- The first minute bin of a sample list (minimum over dates). -/
def loMinute : List Sample → ℤ
  | [] => 0
  | s :: rest => (rest.map (fun x => minuteOf x.date)).foldl min (minuteOf s.date)

/-- The last minute bin of a sample list (maximum over dates). -/
def hiMinute : List Sample → ℤ
  | [] => 0
  | s :: rest => (rest.map (fun x => minuteOf x.date)).foldl max (minuteOf s.date)

/-- The samples falling into minute bin `m`. -/
def minuteBucket (samples : List Sample) (m : ℤ) : List Sample :=
  samples.filter (fun x => decide (minuteOf x.date = m))

/-- The resampled row for minute bin `m`: mean magnitude truncated to an
integer (0 for an empty bin), or-reduced has-objects flag, whole-minute
timestamp. -/
def minuteEntry (samples : List Sample) (m : ℤ) : MinuteEntry :=
  { date := m * 60,
    count := if (minuteBucket samples m).length = 0 then 0
             else pyInt (ratSum ((minuteBucket samples m).map
                    (fun x => x.magnitude)) / ((minuteBucket samples m).length : ℚ)),
    hasObjects := (minuteBucket samples m).any (fun x => x.hasObj) }

/-- The per-minute resampling of one hour bucket's raw sample list. -/
def resampleHour (samples : List Sample) : List MinuteEntry :=
  match samples with
  | [] => []
  | _ :: _ =>
    (List.range ((hiMinute samples - loMinute samples).toNat + 1)).map
      (fun (i : ℕ) => minuteEntry samples (loMinute samples + (i : ℤ)))

theorem resampleHour_cons (s0 : Sample) (rest : List Sample) :
    resampleHour (s0 :: rest)
      = (List.range
          ((hiMinute (s0 :: rest) - loMinute (s0 :: rest)).toNat + 1)).map
          (fun (i : ℕ) =>
            minuteEntry (s0 :: rest) (loMinute (s0 :: rest) + (i : ℤ))) :=
  rfl

theorem minuteEntry_empty (samples : List Sample) (m : ℤ)
    (h : minuteBucket samples m = []) :
    minuteEntry samples m = ⟨m * 60, 0, false⟩ := by
  unfold minuteEntry
  rw [h]
  rfl

/-- **C8, amended.** For a nonempty hour bucket with non-negative
magnitudes, resampling produces one entry per minute from the first to the
last sample minute — `(hiMinute - loMinute) + 1` entries, which is exactly
60 precisely when the samples span 59 minute bins; every entry has a
non-negative integer count and a whole-minute timestamp; a minute in range
with no raw sample yields the zero-filled entry with
`hasObjects = false`. -/
theorem resample_minute_grid (samples : List Sample)
    (hne : samples ≠ [])
    (hmag : ∀ x ∈ samples, 0 ≤ x.magnitude) :
    (resampleHour samples).length
        = (hiMinute samples - loMinute samples).toNat + 1 ∧
    (∀ en ∈ resampleHour samples, 0 ≤ en.count ∧ (60 : ℤ) ∣ en.date) ∧
    (∀ m : ℤ, loMinute samples ≤ m → m ≤ hiMinute samples →
      minuteBucket samples m = [] →
        MinuteEntry.mk (m * 60) 0 false ∈ resampleHour samples) ∧
    (hiMinute samples - loMinute samples = 59 →
      (resampleHour samples).length = 60) := by
  obtain ⟨s0, rest, rfl⟩ := List.exists_cons_of_ne_nil hne
  have hlen : (resampleHour (s0 :: rest)).length
      = (hiMinute (s0 :: rest) - loMinute (s0 :: rest)).toNat + 1 := by
    rw [resampleHour_cons, List.length_map, List.length_range]
  refine ⟨hlen, fun en hen => ?_, fun m hlo hhi hempty => ?_, fun h59 => ?_⟩
  · rw [resampleHour_cons, List.mem_map] at hen
    obtain ⟨i, -, rfl⟩ := hen
    constructor
    · show (0 : ℤ) ≤ (minuteEntry (s0 :: rest) (loMinute (s0 :: rest) + (i : ℤ))).count
      unfold minuteEntry
      by_cases hb : (minuteBucket (s0 :: rest)
          (loMinute (s0 :: rest) + (i : ℤ))).length = 0
      · simp [hb]
      · have hnn : (0 : ℚ) ≤ ratSum
            ((minuteBucket (s0 :: rest) (loMinute (s0 :: rest) + (i : ℤ))).map
              (fun x => x.magnitude))
            / ((minuteBucket (s0 :: rest)
                  (loMinute (s0 :: rest) + (i : ℤ))).length : ℚ) := by
          apply div_nonneg
          · apply ratSum_nonneg
            intro x hx
            rw [List.mem_map] at hx
            obtain ⟨y, hy, rfl⟩ := hx
            exact hmag y (List.mem_of_mem_filter hy)
          · positivity
        simpa [hb] using pyInt_nonneg hnn
    · exact ⟨loMinute (s0 :: rest) + (i : ℤ), by unfold minuteEntry; ring⟩
  · rw [resampleHour_cons, List.mem_map]
    refine ⟨(m - loMinute (s0 :: rest)).toNat, List.mem_range.mpr (by omega), ?_⟩
    have hm : loMinute (s0 :: rest) + ((m - loMinute (s0 :: rest)).toNat : ℤ)
        = m := by omega
    rw [hm]
    exact minuteEntry_empty _ _ hempty
  · rw [hlen, h59]
    rfl

/-- Witness for the amended C8: a bucket holding its hour-start boundary
sample at `0` and its hour-end boundary sample at `3599` spans minute bins
`0` through `59` and resamples to exactly 60 entries. -/
theorem resample_minute_grid_witness :
    (resampleHour [⟨0, 0, false⟩, ⟨3599, 2, true⟩]).length
        = (hiMinute [⟨0, 0, false⟩, ⟨3599, 2, true⟩]
            - loMinute [⟨0, 0, false⟩, ⟨3599, 2, true⟩]).toNat + 1 ∧
    (resampleHour [⟨0, 0, false⟩, ⟨3599, 2, true⟩]).length = 60 := by
  have hlo : loMinute [(⟨0, 0, false⟩ : Sample), ⟨3599, 2, true⟩] = 0 := by
    norm_num [loMinute, minuteOf]
  have hhi : hiMinute [(⟨0, 0, false⟩ : Sample), ⟨3599, 2, true⟩] = 59 := by
    norm_num [hiMinute, minuteOf]
  have h := resample_minute_grid [⟨0, 0, false⟩, ⟨3599, 2, true⟩]
    (by simp)
    (by
      intro x hx
      simp only [List.mem_cons, List.not_mem_nil, or_false] at hx
      rcases hx with rfl | rfl <;> norm_num)
  exact ⟨h.1, h.2.2.2 (by rw [hlo, hhi]; norm_num)⟩

/-- **C8, counterexample.** The claim that every hour bucket resamples to
exactly 60 minute entries fails on the code: the resampled grid only spans
the bucket's first to last sample minute.  A run over the window starting
at epoch `0` with one recording starting at `30` (duration `10`, motion
`1`) leaves hour bucket `0` holding samples at `0` and `35` — both in
minute bin 0 — so its resampling has exactly 1 entry, not 60. -/
theorem resample_sixty_counterexample :
    (resampleHour (lookupHours
        (hourlyActivityRaw (fun _ => 0) 0 0
          [⟨"front", "/r.mp4", 30, 330, 10, 1, 0⟩]) 0)).length = 1 ∧
    (resampleHour (lookupHours
        (hourlyActivityRaw (fun _ => 0) 0 0
          [⟨"front", "/r.mp4", 30, 330, 10, 1, 0⟩]) 0)).length ≠ 60 := by
  have hraw : hourlyActivityRaw (fun _ => 0) 0 0
      [⟨"front", "/r.mp4", 30, 330, 10, 1, 0⟩]
      = [(0, [⟨0, 0, false⟩, ⟨35, 0, false⟩])] := by
    norm_num [hourlyActivityRaw, stepRecording, recordingSample, addSample]
  have hlk : lookupHours
      [((0 : ℤ), [(⟨0, 0, false⟩ : Sample), ⟨35, 0, false⟩])] 0
      = [⟨0, 0, false⟩, ⟨35, 0, false⟩] := by
    simp [lookupHours]
  have hlo : loMinute [(⟨0, 0, false⟩ : Sample), ⟨35, 0, false⟩] = 0 := by
    norm_num [loMinute, minuteOf]
  have hhi : hiMinute [(⟨0, 0, false⟩ : Sample), ⟨35, 0, false⟩] = 0 := by
    norm_num [hiMinute, minuteOf]
  have hres : (resampleHour
      [(⟨0, 0, false⟩ : Sample), ⟨35, 0, false⟩]).length = 1 := by
    rw [resampleHour_cons, List.length_map, List.length_range, hlo, hhi]
    norm_num
  rw [hraw, hlk, hres]
  norm_num

/-! ## `event_preview` (http.py:610-718)

    start_ts = event.start_time
    end_ts = (start_ts + min(event.end_time - event.start_time, 20)
              if event.end_time else 20)
    ...
    # still-frame fallback branch (event within the current hour):
    file_start = f"preview_{event.camera}"
    start_file = f"{file_start}-{start_ts}.jpg"
    end_file = f"{file_start}-{end_ts}.jpg"
    for file in sorted(os.listdir(preview_dir)):
        if not file.startswith(file_start): continue
        if file < start_file: continue
        if file > end_file: break
        selected_previews.append(f"file '...'"); selected_previews.append("duration 0.12")
    if not selected_previews: return 404 "Preview not found"
    last_file = selected_previews[-2]; selected_previews.append(last_file)

Python compares strings by code points, which is exactly the lexicographic
order on the `List Char` underlying a Lean `String`; the comparison is
modelled on `String.data` (`String`'s own `<` is byte-iterator based and
equivalent).  The concrete filename strings (Python renders the float
`start_ts` and the int literal `20` into the names) enter as inputs; the
per-still `duration 0.12` lines are rendering and carry no claim content,
but the duplicated last frame is kept. -/

/-- Python string comparison: code-point lexicographic. -/
def pyStrLt (a b : String) : Prop := a.data < b.data

instance : DecidableRel pyStrLt := fun a b => by
  unfold pyStrLt; infer_instance

/-- Python `file.startswith(prefix)`. -/
def startsWithPy (f pre : String) : Bool := pre.data.isPrefixOf f.data

/-- The animation end timestamp (http.py:620-622).  `event.end_time` is
falsy both when `None` and when `0.0`. -/
def eventPreviewEnd (start_time : ℚ) (end_time : Option ℚ) : ℚ :=
  match end_time with
  | some et => if et = 0 then 20 else start_time + min (et - start_time) 20
  | none => 20

/-- The still-selection loop over the sorted directory listing
(http.py:699-710): skip foreign prefixes, skip names before `start_file`,
break at the first name after `end_file`, keep the rest. -/
def selectStills (files : List String) (fileStart startFile endFile : String) :
    List String :=
  match files with
  | [] => []
  | f :: rest =>
    if startsWithPy f fileStart = false then
      selectStills rest fileStart startFile endFile
    else if pyStrLt f startFile then
      selectStills rest fileStart startFile endFile
    else if pyStrLt endFile f then []
    else f :: selectStills rest fileStart startFile endFile

/-- Outcome of the still-frame fallback. -/
inductive PreviewResponse where
  | notFound404
  | animation (stills : List String)
deriving DecidableEq, Repr

/-- The still-frame fallback (http.py:693-718): 404 when nothing is
selected, else an animation over the selection with the last frame
duplicated. -/
def eventPreviewFallback (files : List String)
    (fileStart startFile endFile : String) : PreviewResponse :=
  match h : selectStills files fileStart startFile endFile with
  | [] => PreviewResponse.notFound404
  | f :: rest =>
    PreviewResponse.animation
      ((f :: rest) ++ [(f :: rest).getLast (by simp)])

/-- **C10, counterexample.** The claim's conclusion — that an in-progress
event with `start_time > 20` always drives the still-frame fallback to the
404 — is false on the code: the selection bounds are compared as rendered
filename strings, not numbers.  With camera `cam`, `start_time =
1700000000` (so `start_file = "preview_cam-1700000000.0.jpg"`, and
`end_ts = 20` gives `end_file = "preview_cam-20.jpg"`), a still named
`preview_cam-1700000001.0.jpg` sorts after `start_file` and before
`end_file` (code point `1` is below `2`), so it is selected and no 404 is
produced, although the numeric window `[1700000000, 20]` is empty. -/
theorem event_preview_empty_window_counterexample :
    eventPreviewEnd 1700000000 none = 20 ∧
    (1700000000 : ℚ) > 20 ∧
    selectStills ["preview_cam-1700000001.0.jpg"] "preview_cam"
        "preview_cam-1700000000.0.jpg" "preview_cam-20.jpg"
      = ["preview_cam-1700000001.0.jpg"] ∧
    eventPreviewFallback ["preview_cam-1700000001.0.jpg"] "preview_cam"
        "preview_cam-1700000000.0.jpg" "preview_cam-20.jpg"
      ≠ PreviewResponse.notFound404 :=
  ⟨rfl, by norm_num, by decide, by decide⟩

/-- **C10, amended.** For an event with a truthy recorded `end_time` the
animation window is `[start, start + min(end - start, 20)]`; for an
in-progress event (`end_time` `None`) the end timestamp is the absolute
epoch value `20`, not `start + 20`.  The still-frame fallback, however,
selects by lexicographic filename comparison: every selected still has the
camera prefix and lies lexicographically between `start_file` and
`end_file`, and the 404 is returned exactly when that lexicographic
selection is empty — not whenever the numeric window is empty. -/
theorem event_preview_window_spec :
    (∀ s : ℚ, eventPreviewEnd s none = 20) ∧
    (∀ s et : ℚ, et ≠ 0 →
      eventPreviewEnd s (some et) = s + min (et - s) 20) ∧
    (∀ (files : List String) (pre lo hi : String),
      ∀ f ∈ selectStills files pre lo hi,
        startsWithPy f pre = true ∧ ¬ pyStrLt f lo ∧ ¬ pyStrLt hi f) ∧
    (∀ (files : List String) (pre lo hi : String),
      eventPreviewFallback files pre lo hi = PreviewResponse.notFound404 ↔
        selectStills files pre lo hi = []) := by
  refine ⟨fun s => rfl, fun s et het => ?_, fun files pre lo hi => ?_,
    fun files pre lo hi => ?_⟩
  · show (if et = 0 then (20 : ℚ) else s + min (et - s) 20)
        = s + min (et - s) 20
    rw [if_neg het]
  · induction files with
    | nil => intro f hf; cases hf
    | cons g rest ih =>
      intro f hf
      unfold selectStills at hf
      by_cases h1 : startsWithPy g pre = false
      · rw [if_pos h1] at hf
        exact ih f hf
      · rw [if_neg h1] at hf
        by_cases h2 : pyStrLt g lo
        · rw [if_pos h2] at hf
          exact ih f hf
        · rw [if_neg h2] at hf
          by_cases h3 : pyStrLt hi g
          · rw [if_pos h3] at hf
            cases hf
          · rw [if_neg h3] at hf
            rcases List.mem_cons.mp hf with rfl | hrest
            · exact ⟨Bool.not_eq_false _ ▸ h1, h2, h3⟩
            · exact ih f hrest
  · unfold eventPreviewFallback
    split
    · simp_all
    · simp_all

/-- Witness for the amended C10 at concrete inputs: a finished 100-second
event is capped at 20 seconds of animation; the still selected in the
counterexample scenario indeed carries the camera prefix and lies between
the bounds; an empty directory listing yields the 404. -/
theorem event_preview_window_spec_witness :
    eventPreviewEnd 0 (some 100) = 0 + min (100 - 0 : ℚ) 20 ∧
    (startsWithPy "preview_cam-15.jpg" "preview_cam" = true ∧
      ¬ pyStrLt "preview_cam-15.jpg" "preview_cam-10.jpg" ∧
      ¬ pyStrLt "preview_cam-20.jpg" "preview_cam-15.jpg") ∧
    (eventPreviewFallback [] "preview_cam" "preview_cam-10.jpg"
        "preview_cam-20.jpg" = PreviewResponse.notFound404 ↔
      selectStills [] "preview_cam" "preview_cam-10.jpg"
        "preview_cam-20.jpg" = []) :=
  ⟨event_preview_window_spec.2.1 0 100 (by norm_num),
   event_preview_window_spec.2.2.1 ["preview_cam-15.jpg"] "preview_cam"
     "preview_cam-10.jpg" "preview_cam-20.jpg" "preview_cam-15.jpg"
     (by decide),
   event_preview_window_spec.2.2.2 [] "preview_cam" "preview_cam-10.jpg"
     "preview_cam-20.jpg"⟩
